import Mathlib

/-!
Verification of the dufs MCP server (main.go) against its specification.

The Go source is shallowly embedded: pure helpers become Lean functions,
the job runner's mutex-delimited write sections become an explicit list of
observable states (a trace), and the remote file server is an oracle
mapping each request to an HTTP status code / outcome.
-/

set_option maxRecDepth 4000

/-! ## String helpers (Go `strings` / `path/filepath` operations) -/

/-- Go `strings.TrimPrefix(s, "/")`: removes one leading slash if present. -/
def stripLeadingSlash (s : String) : String :=
  match s.data with
  | [] => s
  | c :: rest => if c = '/' then String.mk rest else s

/-- Go `filepath.Base` (unix separator): last element of the path after
removing trailing slashes; `"."` for the empty path; `"/"` when the path
consists only of slashes. -/
def filepathBase (p : String) : String :=
  if p = "" then "."
  else
    let r := p.data.reverse.dropWhile (fun c => c == '/')
    if r = [] then "/"
    else String.mk (r.takeWhile (fun c => c != '/')).reverse

/-- Go `strings.Split(s, "/")` on the character list: splits at every
slash, keeping empty fields (so the empty string yields `[[]]`). -/
def splitSlash : List Char → List (List Char)
  | [] => [[]]
  | c :: rest =>
    match splitSlash rest with
    | [] => [[]]
    | hd :: tl => if c = '/' then [] :: hd :: tl else (c :: hd) :: tl

def splitParts (s : String) : List String := (splitSlash s.data).map String.mk

/-! ## Destination resolution (`resolveRemotePath`, main.go:406-421) -/

/-- A calendar date; `time.Now()` is passed to the embedding explicitly. -/
structure CalDate where
  year : Nat
  month : Nat
  day : Nat
deriving DecidableEq, Repr

def pad2 (n : Nat) : String := if n < 10 then "0" ++ toString n else toString n

def pad4 (n : Nat) : String :=
  if n < 10 then "000" ++ toString n
  else if n < 100 then "00" ++ toString n
  else if n < 1000 then "0" ++ toString n
  else toString n

/-- Go `now.Format("20060102")`: the date as YYYYMMDD with zero padding. -/
def formatYYYYMMDD (d : CalDate) : String := pad4 d.year ++ pad2 d.month ++ pad2 d.day

/-- `(s *MCPServer) resolveRemotePath` (main.go:406-421).  The server's
`s.config.UploadDir` and the current date are explicit parameters. -/
def resolveRemotePath (uploadDir : String) (today : CalDate)
    (localPath remotePath : String) : String :=
  if remotePath ≠ "" then stripLeadingSlash remotePath
  else
    let fileName := filepathBase localPath
    let dateDir := formatYYYYMMDD today
    let baseDir0 := stripLeadingSlash uploadDir
    let baseDir := if baseDir0 = "" then "uploads" else baseDir0
    baseDir ++ "/" ++ dateDir ++ "/" ++ fileName

/-! ## Remote directory creation (`ensureRemoteDirectories`, main.go:423-462) -/

/-- `remotePath[:strings.LastIndex(remotePath, "/")]` when a slash exists,
otherwise the whole path (main.go:424-427). -/
def remoteDirData (cs : List Char) : List Char :=
  if '/' ∈ cs then ((cs.reverse.dropWhile (fun c => c != '/')).drop 1).reverse
  else cs

/-- The MKCOL loop of `ensureRemoteDirectories`: walks the split parts,
skipping empty ones, accumulating `current`, issuing one MKCOL per prefix.
`status` is the remote server oracle mapping the MKCOL target to its HTTP
status code.  Returns the MKCOL targets requested, in order, and the
error (if any) that aborted the loop.  A 405 (method not allowed,
"directory already exists") is treated as success (main.go:451). -/
def mkcolLoop (status : String → Nat) : List String → String → List String × Option String
  | [], _ => ([], none)
  | part :: rest, current =>
    if part = "" then mkcolLoop status rest current
    else
      let cur := if current = "" then part else current ++ "/" ++ part
      if 400 ≤ status cur ∧ status cur ≠ 405 then
        ([cur], some ("create directory failed with status " ++ toString (status cur)))
      else
        let r := mkcolLoop status rest cur
        (cur :: r.1, r.2)

/-- `(s *MCPServer) ensureRemoteDirectories` (main.go:423-462), with the
remote server modelled by the `status` oracle.  First component: the MKCOL
calls issued, in order; second: the error aborting the sequence, if any. -/
def ensureRemoteDirectories (status : String → Nat) (remotePath : String) :
    List String × Option String :=
  let remoteDir := String.mk (remoteDirData remotePath.data)
  if remoteDir = "" then ([], none)
  else mkcolLoop status (splitParts (stripLeadingSlash remoteDir)) ""

/-- The accumulated nonempty-component prefixes walked by the MKCOL loop
(the loop's targets when no request aborts it). -/
def dirPrefixes : List String → String → List String
  | [], _ => []
  | part :: rest, current =>
    if part = "" then dirPrefixes rest current
    else
      let cur := if current = "" then part else current ++ "/" ++ part
      cur :: dirPrefixes rest cur

/-- The full set of MKCOL targets `ensureRemoteDirectories` walks for a
destination (what it issues when nothing aborts). -/
def mkcolTargets (p : String) : List String :=
  let remoteDir := String.mk (remoteDirData p.data)
  if remoteDir = "" then [] else dirPrefixes (splitParts (stripLeadingSlash remoteDir)) ""

/-- Written from the claim's words, for comparison with the source: the
intermediate directory components of a destination are the successive
prefixes of the part strictly before the last slash, shallowest to
deepest; a destination without any slash has no intermediate directory
component at all. -/
def claimIntermediatePrefixes (p : String) : List String :=
  if '/' ∈ p.data then
    let dir := String.mk (((p.data.reverse.dropWhile (fun c => c != '/')).drop 1).reverse)
    if dir = "" then [] else dirPrefixes (splitParts (stripLeadingSlash dir)) ""
  else []

/-! ## Message envelope and dispatcher (`handleMessage`, main.go:982-1021) -/

/-- A non-null JSON-RPC `id` (an opaque correlation token).  `Option MCPId`
with `none` models an omitted or `null` id, i.e. a notification. -/
inductive MCPId
  | num (n : Int)
  | str (s : String)
deriving DecidableEq, Repr

/-- The string-keyed argument bag of a tool call (values kept opaque as
their raw JSON text). -/
abbrev ToolArgs := List (String × String)

/-- The decoded `params` of a `tools/call` request (main.go:347-350). -/
structure ToolCallParams where
  name : String
  arguments : ToolArgs
deriving DecidableEq, Repr

/-- A tool handler's outcome: an error message or the JSON-marshalled
native result. -/
abbrev ToolOutcome := Except String String

/-- The eleven tool implementations `handleToolsCall` dispatches to,
modelled as oracles (they perform network and file I/O in the source). -/
structure ToolHandlers where
  upload : ToolArgs → ToolOutcome
  uploadBatch : ToolArgs → ToolOutcome
  uploadStatus : ToolArgs → ToolOutcome
  download : ToolArgs → ToolOutcome
  delete : ToolArgs → ToolOutcome
  listDir : ToolArgs → ToolOutcome
  createDir : ToolArgs → ToolOutcome
  move : ToolArgs → ToolOutcome
  getHash : ToolArgs → ToolOutcome
  downloadFolder : ToolArgs → ToolOutcome
  health : ToolArgs → ToolOutcome

/-- The registry's closed set of tool names, in registration order
(the `tools` slice of `NewMCPServer`, main.go:120-317). -/
def toolNames : List String :=
  ["dufs_upload", "dufs_upload_batch", "dufs_upload_status", "dufs_download",
   "dufs_delete", "dufs_list", "dufs_create_dir", "dufs_move", "dufs_get_hash",
   "dufs_download_folder", "dufs_health"]

/-- The `tools/call` result envelope: the native result serialized to text
and wrapped with `isError:false` (main.go:395-403). -/
structure CallResult where
  contentText : String
  isError : Bool
deriving DecidableEq, Repr

/-- `(s *MCPServer) handleToolsCall` (main.go:346-404).  `none` params
model a body whose `params` cannot be unmarshalled. -/
def handleToolsCall (h : ToolHandlers) (params : Option ToolCallParams) :
    Except String CallResult :=
  match params with
  | none => .error "invalid parameters"
  | some p =>
    let r : ToolOutcome :=
      if p.name = "dufs_upload" then h.upload p.arguments
      else if p.name = "dufs_upload_batch" then h.uploadBatch p.arguments
      else if p.name = "dufs_upload_status" then h.uploadStatus p.arguments
      else if p.name = "dufs_download" then h.download p.arguments
      else if p.name = "dufs_delete" then h.delete p.arguments
      else if p.name = "dufs_list" then h.listDir p.arguments
      else if p.name = "dufs_create_dir" then h.createDir p.arguments
      else if p.name = "dufs_move" then h.move p.arguments
      else if p.name = "dufs_get_hash" then h.getHash p.arguments
      else if p.name = "dufs_download_folder" then h.downloadFolder p.arguments
      else if p.name = "dufs_health" then h.health p.arguments
      else .error ("unknown tool: " ++ p.name)
    match r with
    | .error e => .error e
    | .ok rj => .ok ⟨rj, false⟩

structure MCPError where
  code : Int
  message : String
deriving DecidableEq, Repr

inductive DispatchResult
  | initializeResult
  | toolsListResult (names : List String)
  | callResult (r : CallResult)
deriving DecidableEq, Repr

/-- A response envelope: echoes the request id, carries result xor error. -/
structure MCPResponse where
  jsonrpc : String
  id : Option MCPId
  result : Option DispatchResult
  error : Option MCPError
deriving DecidableEq, Repr

/-- An incoming decoded envelope. -/
structure MCPMessage where
  id : Option MCPId
  method : String
  params : Option ToolCallParams
deriving DecidableEq, Repr

/-- `(s *MCPServer) handleMessage` (main.go:982-1021): empty method is a
-32600 invalid request; the three-way method switch; any handler error is
wrapped as a -32000 application error. -/
def handleMessage (h : ToolHandlers) (msg : MCPMessage) : MCPResponse :=
  if msg.method = "" then
    ⟨"2.0", msg.id, none, some ⟨-32600, "Invalid Request: method is required"⟩⟩
  else
    let r : Except String DispatchResult :=
      if msg.method = "initialize" then .ok .initializeResult
      else if msg.method = "tools/list" then .ok (.toolsListResult toolNames)
      else if msg.method = "tools/call" then
        match handleToolsCall h msg.params with
        | .ok cr => .ok (.callResult cr)
        | .error e => .error e
      else .error ("unknown method: " ++ msg.method)
    match r with
    | .ok res => ⟨"2.0", msg.id, some res, none⟩
    | .error e => ⟨"2.0", msg.id, none, some ⟨-32000, e⟩⟩

/-- The responses the stdio line-stream adapter writes for one decoded
envelope (`runStdioMode`, main.go:1080-1087): the response is encoded only
when the incoming id is non-nil. -/
def stdioWrites (h : ToolHandlers) (msg : MCPMessage) : List MCPResponse :=
  let response := handleMessage h msg
  if msg.id ≠ none then [response] else []

/-- The responses the HTTP `/message` endpoint writes for one decoded POST
body (`runHTTPMode`, main.go:1137-1144): the response is always encoded,
with no check of the incoming id. -/
def httpMessageWrites (h : ToolHandlers) (msg : MCPMessage) : List MCPResponse :=
  [handleMessage h msg]

/-! ## Upload jobs and tasks (main.go:56-75) -/

/-- `UploadTaskResult` (main.go:56-66).  Go `time.Time` zero values are
modelled as `none`; statuses are the literal strings the source writes. -/
structure UploadTaskResult where
  localPath : String
  requestedRemotePath : String
  resolvedRemotePath : String
  status : String
  message : String
  error : String
  httpStatus : Nat
  startedAt : Option Nat
  completedAt : Option Nat
deriving DecidableEq, Repr

instance : Inhabited UploadTaskResult :=
  ⟨⟨"", "", "", "", "", "", 0, none, none⟩⟩

/-- `UploadJob` (main.go:68-75). -/
structure UploadJob where
  id : String
  status : String
  error : String
  createdAt : Nat
  completedAt : Option Nat
  tasks : List UploadTaskResult
deriving DecidableEq, Repr

/-- A task as both async entry points create it: pending, nothing else set
(main.go:507-513 and 574-578). -/
def newUploadTask (localPath requestedRemotePath : String) : UploadTaskResult :=
  ⟨localPath, requestedRemotePath, "", "pending", "", "", 0, none, none⟩

/-! ## Job creation and the job map (`handleUpload` / `handleUploadBatch`) -/

/-- `fmt.Sprintf("job-%d", time.Now().UnixNano())` (main.go:515 and 621):
the job identifier is derived from the clock reading alone. -/
def mkJobID (unixNano : Nat) : String := "job-" ++ toString unixNano

/-- The process-wide `jobs map[string]*UploadJob`, as an association list. -/
abbrev JobStore := List (String × UploadJob)

/-- Go map assignment `s.jobs[jobID] = job`: replaces an existing binding,
otherwise appends. -/
def storeSet : JobStore → String → UploadJob → JobStore
  | [], key, v => [(key, v)]
  | (k, w) :: rest, key, v =>
    if k = key then (k, v) :: rest else (k, w) :: storeSet rest key v

/-- Go map lookup `job, exists := s.jobs[jobID]`. -/
def storeLookup : JobStore → String → Option UploadJob
  | [], _ => none
  | (k, v) :: rest, key => if k = key then some v else storeLookup rest key

/-- The shared job-acceptance step of `handleUpload` (async, main.go:515-525)
and `handleUploadBatch` (async, main.go:621-631): derive the id from the
clock, store a pending job, return the id. -/
def createUploadJob (store : JobStore) (unixNano : Nat) (tasks : List UploadTaskResult) :
    String × JobStore :=
  let jobID := mkJobID unixNano
  let job : UploadJob := ⟨jobID, "pending", "", unixNano, none, tasks⟩
  (jobID, storeSet store jobID job)

/-! ## Status query (`handleUploadStatus`, main.go:643-670) -/

/-- `copyJob` (main.go:665-670): a copy of the job with a fresh copy of
the task slice. -/
def copyJob (job : UploadJob) : UploadJob :=
  { job with tasks := job.tasks.map (fun t => t) }

structure StatusResponse where
  success : Bool
  job : UploadJob
deriving DecidableEq, Repr

/-- `(s *MCPServer) handleUploadStatus` (main.go:643-663).  The handler
only reads the store under `RLock`; it is returned unchanged to make the
absence of mutation explicit. -/
def handleUploadStatus (store : JobStore) (jobID : String) :
    Except String StatusResponse × JobStore :=
  if jobID = "" then (.error "job_id is required", store)
  else
    match storeLookup store jobID with
    | none => (.error ("job " ++ jobID ++ " not found"), store)
    | some job => (.ok ⟨true, copyJob job⟩, store)

/-! ## The job runner (`runUploadJob`, main.go:672-712)

Each mutex-protected write section of the runner produces one observable
job state; readers (`handleUploadStatus` takes the same mutex) can only
ever observe this sequence of states.  `performUpload` is modelled by an
oracle giving each task's outcome by its position in the job. -/

/-- The outcome of `performUpload` for one task: the resolved remote path
and HTTP status on success, or an error message and status on failure. -/
inductive UploadOutcome
  | ok (resolvedPath : String) (statusCode : Nat)
  | err (message : String) (statusCode : Nat)
deriving DecidableEq, Repr

/-- In-place update of the i-th list element (slice write `job.Tasks[i]`). -/
def updateTask {α : Type} : List α → Nat → (α → α) → List α
  | [], _, _ => []
  | t :: rest, 0, f => f t :: rest
  | t :: rest, n + 1, f => t :: updateTask rest n f

/-- main.go:679-680: status running, start time recorded, in one locked
section. -/
def taskRunning (now : Nat) (t : UploadTaskResult) : UploadTaskResult :=
  { t with status := "running", startedAt := some now }

/-- main.go:700-704: status, resolved path, message, HTTP status and
completion time on success. -/
def taskSucceeded (path : String) (code now : Nat) (t : UploadTaskResult) : UploadTaskResult :=
  { t with
    status := "succeeded", resolvedRemotePath := path,
    message := "uploaded to " ++ path, httpStatus := code, completedAt := some now }

/-- main.go:689-692: status, error, HTTP status and completion time on
failure. -/
def taskFailed (msg : String) (code now : Nat) (t : UploadTaskResult) : UploadTaskResult :=
  { t with status := "failed", error := msg, httpStatus := code, completedAt := some now }

/-- Locked section main.go:678-683: task i marked running with its start
time. -/
def jobTaskRunning (j : UploadJob) (i clk : Nat) : UploadJob :=
  { j with tasks := updateTask j.tasks i (taskRunning clk) }

/-- Locked section main.go:699-705: task i marked succeeded. -/
def jobTaskSucceeded (j : UploadJob) (i : Nat) (p : String) (c now : Nat) : UploadJob :=
  { j with tasks := updateTask j.tasks i (taskSucceeded p c now) }

/-- Locked section main.go:687-697: task i and the whole job marked failed
together. -/
def jobTaskFailedJobFailed (j : UploadJob) (i : Nat) (m : String) (c now : Nat) : UploadJob :=
  { j with
    tasks := updateTask j.tasks i (taskFailed m c now),
    status := "failed", error := m, completedAt := some now }

/-- Locked section main.go:708-711: job marked completed. -/
def jobCompleted (j : UploadJob) (clk : Nat) : UploadJob :=
  { j with status := "completed", completedAt := some clk }

/-- The runner's loop from task index `i` on: the list of job states after
each locked write section.  The ghost list drives the iteration count
(`for i := range job.Tasks` fixes the count up front); `clk` is the
clock.  On a task failure the task and the whole job are marked failed in
one locked section and the loop stops (main.go:688-698). -/
def runFrom (upload : Nat → UploadOutcome) (j : UploadJob) (i clk : Nat) :
    List UploadTaskResult → List UploadJob
  | [] => [jobCompleted j clk]
  | _ :: ghost =>
    let j1 := jobTaskRunning j i clk
    match upload i with
    | .err m c => [j1, jobTaskFailedJobFailed j1 i m c (clk + 1)]
    | .ok p c =>
      let j2 := jobTaskSucceeded j1 i p c (clk + 1)
      j1 :: j2 :: runFrom upload j2 (i + 1) (clk + 2) ghost

/-- The full sequence of observable states `runUploadJob` writes for a job
(main.go:672-712): first the job is marked running, then each task is
processed in order. -/
def runUploadJobTrace (upload : Nat → UploadOutcome) (j0 : UploadJob) : List UploadJob :=
  let j1 := { j0 with status := "running" }
  j1 :: runFrom upload j1 0 1 j0.tasks

/-- All states a status reader can observe for a job: the pending state it
was created in, then everything the runner writes. -/
def jobStates (upload : Nat → UploadOutcome) (j0 : UploadJob) : List UploadJob :=
  j0 :: runUploadJobTrace upload j0

def lastState : List UploadJob → UploadJob → UploadJob
  | [], d => d
  | [s], _ => s
  | _ :: s :: rest, d => lastState (s :: rest) d

/-- The job state after the runner returns. -/
def runUploadJobFinal (upload : Nat → UploadOutcome) (j0 : UploadJob) : UploadJob :=
  lastState (runUploadJobTrace upload j0) j0

/-! ## Synchronous batch upload (`handleUploadBatch` with async=false,
main.go:581-618) -/

/-- One per-task entry of the synchronous batch result (main.go:586-601).
`error` is `none` when the map omits the key (success case). -/
structure BatchEntry where
  localPath : String
  remotePath : String
  success : Bool
  error : Option String
  status : Nat
deriving DecidableEq, Repr

instance : Inhabited BatchEntry := ⟨⟨"", "", false, none, 0⟩⟩

/-- The entry built for one task from its `performUpload` outcome. -/
def syncEntry (t : UploadTaskResult) (o : UploadOutcome) : BatchEntry :=
  match o with
  | .err m c => ⟨t.localPath, t.requestedRemotePath, false, some m, c⟩
  | .ok p c => ⟨t.localPath, p, true, none, c⟩

/-- The synchronous loop: every task is attempted in order, one entry per
task, regardless of earlier failures (main.go:583-602). -/
def syncBatchRun (upload : Nat → UploadOutcome) :
    List UploadTaskResult → Nat → List BatchEntry
  | [], _ => []
  | t :: rest, i => syncEntry t (upload i) :: syncBatchRun upload rest (i + 1)

/-- The all-success check over the results (main.go:604-611). -/
def allSuccessOf (rs : List BatchEntry) : Bool := rs.all (fun r => r.success)

structure BatchResponse where
  success : Bool
  results : List BatchEntry
  count : Nat
deriving DecidableEq, Repr

/-- The synchronous (`async=false`) branch of `handleUploadBatch`
(main.go:581-618), after the task list has been validated and built. -/
def handleUploadBatchSync (upload : Nat → UploadOutcome)
    (tasks : List UploadTaskResult) : BatchResponse :=
  let results := syncBatchRun upload tasks 0
  ⟨allSuccessOf results, results, results.length⟩

/-- A MKCOL outcome the loop treats as success: any status below 400, or
the distinguished 405 already-exists signal. -/
def mkcolOK (status : String → Nat) (u : String) : Prop :=
  status u < 400 ∨ status u = 405

instance (status : String → Nat) (u : String) : Decidable (mkcolOK status u) := by
  unfold mkcolOK
  infer_instance

/-! ## Observable-state orderings for the runner trace -/

/-- The progression rank of a task status: pending before running before
either terminal status. -/
def statusRank (s : String) : Nat :=
  if s = "pending" then 0
  else if s = "running" then 1
  else if s = "succeeded" then 2
  else if s = "failed" then 2
  else 0

/-- One observable step of a single task: the rank never decreases, and a
terminal status (succeeded/failed) never changes again. -/
def taskStep (t u : UploadTaskResult) : Prop :=
  statusRank t.status ≤ statusRank u.status ∧
  ((t.status = "succeeded" ∨ t.status = "failed") → u.status = t.status)

/-- One observable step of a job: the task list keeps its length, a
terminal job status (completed/failed) never changes again, and every task
takes a `taskStep`. -/
def jobStep (a b : UploadJob) : Prop :=
  b.tasks.length = a.tasks.length ∧
  ((a.status = "completed" ∨ a.status = "failed") → b.status = a.status) ∧
  (∀ k, k < a.tasks.length → taskStep (a.tasks.getD k default) (b.tasks.getD k default))

/-! ## Concrete fixtures used by witnesses -/

/-- A trivial set of tool handlers (each tool succeeds with result `null`). -/
def constHandlers : ToolHandlers :=
  ⟨fun _ => .ok "null", fun _ => .ok "null", fun _ => .ok "null", fun _ => .ok "null",
   fun _ => .ok "null", fun _ => .ok "null", fun _ => .ok "null", fun _ => .ok "null",
   fun _ => .ok "null", fun _ => .ok "null", fun _ => .ok "null"⟩

/-- A notification: well-formed envelope whose id is omitted/null. -/
def notificationMsg : MCPMessage := ⟨none, "tools/list", none⟩

/-- A remote-server oracle whose answer for `a/b` is the distinguished
405 already-exists signal and 201 otherwise. -/
def statusOracle405 : String → Nat := fun s => if s = "a/b" then 405 else 201

/-- A two-task upload oracle: task 0 succeeds, task 1 fails. -/
def sampleUpload : Nat → UploadOutcome :=
  fun i => if i = 0 then .ok "uploads/20240305/a.txt" 201 else .err "boom" 500

def sampleTasks : List UploadTaskResult :=
  [newUploadTask "/tmp/a.txt" "", newUploadTask "/tmp/b.txt" "x/b"]

/-- A freshly created two-task job. -/
def sampleJob : UploadJob :=
  ⟨"job-77", "pending", "", 7, none, sampleTasks⟩

def sampleStore : JobStore := [("job-77", sampleJob)]

/-- A three-task upload oracle: task 0 succeeds, task 1 fails, task 2
would succeed if it were ever attempted. -/
def sampleUpload3 : Nat → UploadOutcome :=
  fun i => if i = 0 then .ok "p0" 201 else if i = 1 then .err "boom" 500 else .ok "p2" 201

/-! ## General helper lemmas -/

theorem String_mk_data (s : String) : String.mk s.data = s := rfl

theorem updateTask_length {α : Type} (f : α → α) :
    ∀ (ts : List α) (i : Nat), (updateTask ts i f).length = ts.length
  | [], _ => rfl
  | _ :: rest, 0 => by simp [updateTask]
  | _ :: rest, n + 1 => by simp [updateTask, updateTask_length f rest n]

theorem updateTask_getD_self {α : Type} (f : α → α) (d : α) :
    ∀ (ts : List α) (i : Nat), i < ts.length →
      (updateTask ts i f).getD i d = f (ts.getD i d)
  | [], i, h => absurd h (by simp)
  | _ :: rest, 0, _ => by simp [updateTask]
  | _ :: rest, n + 1, h => by
      simp only [updateTask, List.getD_cons_succ]
      exact updateTask_getD_self f d rest n (by simpa using h)

theorem updateTask_getD_other {α : Type} (f : α → α) (d : α) :
    ∀ (ts : List α) (i k : Nat), k ≠ i →
      (updateTask ts i f).getD k d = ts.getD k d
  | [], _, _, _ => by simp [updateTask]
  | _ :: rest, 0, 0, h => absurd rfl h
  | _ :: rest, 0, k + 1, _ => by simp [updateTask]
  | _ :: rest, i + 1, 0, _ => by simp [updateTask]
  | _ :: rest, i + 1, k + 1, h => by
      simp only [updateTask, List.getD_cons_succ]
      exact updateTask_getD_other f d rest i k (fun e => h (by rw [e]))

theorem forall_mem_of_forall_getD {α : Type} (P : α → Prop) (d : α) :
    ∀ (l : List α), (∀ k, k < l.length → P (l.getD k d)) → ∀ t ∈ l, P t
  | [], _, t, ht => absurd ht (by simp)
  | a :: l, h, t, ht => by
      rcases List.mem_cons.mp ht with rfl | ht2
      · simpa using h 0 (by simp)
      · exact forall_mem_of_forall_getD P d l
          (fun k hk => by simpa using h (k + 1) (by simpa using Nat.succ_lt_succ hk)) t ht2

theorem getD_mem_of_lt {α : Type} (d : α) :
    ∀ (l : List α) (k : Nat), k < l.length → l.getD k d ∈ l
  | a :: l, 0, _ => by simp
  | a :: l, k + 1, h => by
      simp only [List.getD_cons_succ]
      exact List.mem_cons_of_mem a (getD_mem_of_lt d l k (by simpa using h))

theorem dropLast_cons_ne {α : Type} (a : α) (l : List α) (h : l ≠ []) :
    (a :: l).dropLast = a :: l.dropLast := by
  cases l with
  | nil => exact absurd rfl h
  | cons b t => rfl

/-! ## C5: destination resolution -/

/-- C5 (confirmed): a caller-supplied destination is used verbatim apart
from stripping the leading slash; an omitted destination resolves to
⟨base dir, default "uploads" when empty after stripping a leading slash⟩
/ ⟨YYYYMMDD date⟩ / ⟨base name of the source⟩; in particular source
/tmp/a.txt with base uploads on 2024-03-05 gives uploads/20240305/a.txt. -/
theorem resolveRemotePath_spec (uploadDir : String) (d : CalDate)
    (localPath remotePath : String) :
    (remotePath ≠ "" →
      resolveRemotePath uploadDir d localPath remotePath = stripLeadingSlash remotePath) ∧
    (∀ rest, remotePath.data = '/' :: rest →
      resolveRemotePath uploadDir d localPath remotePath = String.mk rest) ∧
    (remotePath ≠ "" → remotePath.data.head? ≠ some '/' →
      resolveRemotePath uploadDir d localPath remotePath = remotePath) ∧
    (remotePath = "" →
      resolveRemotePath uploadDir d localPath remotePath =
        (if stripLeadingSlash uploadDir = "" then "uploads" else stripLeadingSlash uploadDir)
          ++ "/" ++ formatYYYYMMDD d ++ "/" ++ filepathBase localPath) ∧
    resolveRemotePath "uploads" ⟨2024, 3, 5⟩ "/tmp/a.txt" "" = "uploads/20240305/a.txt" := by
  refine ⟨?_, ?_, ?_, ?_, by decide⟩
  · intro h
    simp [resolveRemotePath, h]
  · intro rest hdata
    have hne : remotePath ≠ "" := by
      intro h
      rw [h] at hdata
      exact absurd hdata (by simp)
    simp [resolveRemotePath, hne, stripLeadingSlash, hdata]
  · intro hne hhead
    have hcases : resolveRemotePath uploadDir d localPath remotePath = stripLeadingSlash remotePath := by
      simp [resolveRemotePath, hne]
    rw [hcases]
    obtain ⟨cs⟩ := remotePath
    cases cs with
    | nil => exact absurd rfl hne
    | cons c rest =>
      have hc : c ≠ '/' := by
        intro h
        exact hhead (by simp [h])
      simp [stripLeadingSlash, hc]
  · intro h
    simp [resolveRemotePath, h]

/-- Witness for `resolveRemotePath_spec` at concrete inputs. -/
theorem resolveRemotePath_spec_witness :
    ("x/y.txt" : String) ≠ "" ∧
    resolveRemotePath "uploads" ⟨2024, 3, 5⟩ "/tmp/a.txt" "x/y.txt" = "x/y.txt" :=
  ⟨by decide,
   ((resolveRemotePath_spec "uploads" ⟨2024, 3, 5⟩ "/tmp/a.txt" "x/y.txt").1
     (by decide)).trans (by decide)⟩

/-! ## C6: remote directory creation -/

theorem mkcolLoop_all_ok (status : String → Nat) :
    ∀ (parts : List String) (current : String),
      (∀ u ∈ dirPrefixes parts current, mkcolOK status u) →
      mkcolLoop status parts current = (dirPrefixes parts current, none)
  | [], _, _ => rfl
  | part :: rest, current, h => by
      by_cases hp : part = ""
      · rw [show mkcolLoop status (part :: rest) current = mkcolLoop status rest current
             from by simp [mkcolLoop, hp],
            show dirPrefixes (part :: rest) current = dirPrefixes rest current
             from by simp [dirPrefixes, hp]]
        exact mkcolLoop_all_ok status rest current
          (by rw [show dirPrefixes (part :: rest) current = dirPrefixes rest current
                   from by simp [dirPrefixes, hp]] at h; exact h)
      · have hpre : dirPrefixes (part :: rest) current =
            (if current = "" then part else current ++ "/" ++ part)
              :: dirPrefixes rest (if current = "" then part else current ++ "/" ++ part) := by
          simp [dirPrefixes, hp]
        have hcur : mkcolOK status (if current = "" then part else current ++ "/" ++ part) := by
          apply h
          rw [hpre]
          exact List.mem_cons_self _ _
        have hcond : ¬(400 ≤ status (if current = "" then part else current ++ "/" ++ part) ∧
            status (if current = "" then part else current ++ "/" ++ part) ≠ 405) := by
          rcases hcur with hlt | he
          · intro hc
            omega
          · intro hc
            exact hc.2 he
        have htail := mkcolLoop_all_ok status rest
          (if current = "" then part else current ++ "/" ++ part)
          (by
            intro u hu
            apply h
            rw [hpre]
            exact List.mem_cons_of_mem _ hu)
        rw [hpre]
        simp only [mkcolLoop, hp, if_false, if_neg hcond, htail]

theorem mkcolLoop_abort (status : String → Nat) :
    ∀ (parts : List String) (current : String) (pre : List String) (t : String)
      (post : List String),
      dirPrefixes parts current = pre ++ t :: post →
      (∀ u ∈ pre, mkcolOK status u) → 400 ≤ status t → status t ≠ 405 →
      mkcolLoop status parts current =
        (pre ++ [t], some ("create directory failed with status " ++ toString (status t)))
  | [], _, pre, t, post, h, _, _, _ => by
      cases pre <;> simp [dirPrefixes] at h
  | part :: rest, current, pre, t, post, h, hpre, hge, hne => by
      by_cases hp : part = ""
      · rw [show mkcolLoop status (part :: rest) current = mkcolLoop status rest current
             from by simp [mkcolLoop, hp]]
        refine mkcolLoop_abort status rest current pre t post ?_ hpre hge hne
        rw [show dirPrefixes (part :: rest) current = dirPrefixes rest current
             from by simp [dirPrefixes, hp]] at h
        exact h
      · have hpre2 : dirPrefixes (part :: rest) current =
            (if current = "" then part else current ++ "/" ++ part)
              :: dirPrefixes rest (if current = "" then part else current ++ "/" ++ part) := by
          simp [dirPrefixes, hp]
        rw [hpre2] at h
        cases pre with
        | nil =>
          simp only [List.nil_append] at h
          have ht : (if current = "" then part else current ++ "/" ++ part) = t :=
            (List.cons.injEq _ _ _ _ ▸ h).1
          have hcond : 400 ≤ status (if current = "" then part else current ++ "/" ++ part) ∧
              status (if current = "" then part else current ++ "/" ++ part) ≠ 405 := by
            rw [ht]
            exact ⟨hge, hne⟩
          simp only [mkcolLoop, hp, if_false, if_pos hcond]
          rw [ht]
          simp
        | cons q pre2 =>
          simp only [List.cons_append, List.cons.injEq] at h
          obtain ⟨hq, htail⟩ := h
          have hqok : mkcolOK status (if current = "" then part else current ++ "/" ++ part) := by
            rw [hq]
            exact hpre q (List.mem_cons_self _ _)
          have hcond : ¬(400 ≤ status (if current = "" then part else current ++ "/" ++ part) ∧
              status (if current = "" then part else current ++ "/" ++ part) ≠ 405) := by
            rcases hqok with hlt | he
            · intro hc
              omega
            · intro hc
              exact hc.2 he
          have hrec := mkcolLoop_abort status rest
            (if current = "" then part else current ++ "/" ++ part) pre2 t post htail
            (fun u hu => hpre u (List.mem_cons_of_mem _ hu)) hge hne
          simp only [mkcolLoop, hp, if_false, if_neg hcond, hrec]
          simp [hq]

theorem splitSlash_no_slash :
    ∀ (cs : List Char), '/' ∉ cs → splitSlash cs = [cs]
  | [], _ => rfl
  | c :: rest, h => by
      have hc : c ≠ '/' := fun e => h (by simp [e])
      have hr : ('/' : Char) ∉ rest := fun m => h (List.mem_cons_of_mem _ m)
      simp [splitSlash, splitSlash_no_slash rest hr, hc]

/-- C6 counterexample: for the slash-free destination `file.txt` the code
issues a MKCOL for the destination string itself, while the claim's
intermediate-directory reading demands no MKCOL call at all. -/
theorem ensureRemoteDirectories_counterexample :
    (ensureRemoteDirectories (fun _ => 201) "file.txt").1 = ["file.txt"] ∧
    claimIntermediatePrefixes "file.txt" = [] ∧
    (ensureRemoteDirectories (fun _ => 201) "file.txt").1 ≠ claimIntermediatePrefixes "file.txt" := by
  refine ⟨by decide, by decide, by decide⟩

/-- C6 (amended): for a destination containing a slash the MKCOL calls are
exactly the intermediate directory prefixes, shallowest to deepest; for a
nonempty destination without any slash the code instead issues a single
MKCOL for the destination string itself; a 405 already-exists answer is
treated as success and never aborts the walk, while any other status of
400 or above aborts it with an error after the offending call. -/
theorem ensureRemoteDirectories_spec (status : String → Nat) (p : String) :
    ('/' ∈ p.data → mkcolTargets p = claimIntermediatePrefixes p) ∧
    ('/' ∉ p.data → mkcolTargets p = if p = "" then [] else [p]) ∧
    ((∀ u ∈ mkcolTargets p, mkcolOK status u) →
      ensureRemoteDirectories status p = (mkcolTargets p, none)) ∧
    (∀ pre t post, mkcolTargets p = pre ++ t :: post →
      (∀ u ∈ pre, mkcolOK status u) → 400 ≤ status t → status t ≠ 405 →
      ensureRemoteDirectories status p =
        (pre ++ [t], some ("create directory failed with status " ++ toString (status t)))) := by
  refine ⟨?_, ?_, ?_, ?_⟩
  · intro h
    simp [mkcolTargets, claimIntermediatePrefixes, remoteDirData, h]
  · intro h
    have hdir : remoteDirData p.data = p.data := by simp [remoteDirData, h]
    obtain ⟨cs⟩ := p
    by_cases hp : String.mk cs = ""
    · simp [mkcolTargets, hdir, hp]
    · have hne : cs ≠ [] := by
        intro e
        exact hp (by rw [e])
      cases cs with
      | nil => exact absurd rfl hne
      | cons c rest =>
        have hc : c ≠ '/' := fun e => h (by simp [e])
        have hstrip : stripLeadingSlash (String.mk (c :: rest)) = String.mk (c :: rest) := by
          simp [stripLeadingSlash, hc]
        have hsplit : splitParts (String.mk (c :: rest)) = [String.mk (c :: rest)] := by
          simp [splitParts, splitSlash_no_slash _ h]
        simp [mkcolTargets, hdir, hp, hstrip, hsplit, dirPrefixes]
  · intro h
    by_cases hrd : String.mk (remoteDirData p.data) = ""
    · simp [ensureRemoteDirectories, mkcolTargets, hrd]
    · have hT : mkcolTargets p =
          dirPrefixes (splitParts (stripLeadingSlash (String.mk (remoteDirData p.data)))) "" := by
        simp [mkcolTargets, hrd]
      rw [hT] at h
      simp only [ensureRemoteDirectories, if_neg hrd, hT]
      exact mkcolLoop_all_ok status _ "" h
  · intro pre t post heq hpre hge hne
    by_cases hrd : String.mk (remoteDirData p.data) = ""
    · rw [show mkcolTargets p = [] from by simp [mkcolTargets, hrd]] at heq
      cases pre <;> simp at heq
    · have hT : mkcolTargets p =
          dirPrefixes (splitParts (stripLeadingSlash (String.mk (remoteDirData p.data)))) "" := by
        simp [mkcolTargets, hrd]
      rw [hT] at heq
      simp only [ensureRemoteDirectories, if_neg hrd]
      exact mkcolLoop_abort status _ "" pre t post heq hpre hge hne

/-- Witness for `ensureRemoteDirectories_spec`: for `a/b/c/file.txt` with
`a/b` answering 405 and the rest 201, the walk is `a`, `a/b`, `a/b/c`
with no error. -/
theorem ensureRemoteDirectories_spec_witness :
    (∀ u ∈ mkcolTargets "a/b/c/file.txt", mkcolOK statusOracle405 u) ∧
    ensureRemoteDirectories statusOracle405 "a/b/c/file.txt" =
      (mkcolTargets "a/b/c/file.txt", none) :=
  ⟨by decide,
   (ensureRemoteDirectories_spec statusOracle405 "a/b/c/file.txt").2.2.1 (by decide)⟩

/-! ## C7: closed method and tool routing -/

/-- C7 (confirmed): a routed method outside the closed three-way switch
yields a -32000 error embedding the method name and no result; a
`tools/call` whose tool name is outside the registry's closed set yields a
-32000 error naming the tool and no result.  (An empty method is caught
earlier as a -32600 invalid request and is not routed.) -/
theorem handleMessage_unknown_spec (h : ToolHandlers) (msg : MCPMessage) :
    (msg.method ∉ (["", "initialize", "tools/list", "tools/call"] : List String) →
      (handleMessage h msg).error = some ⟨-32000, "unknown method: " ++ msg.method⟩ ∧
      (handleMessage h msg).result = none) ∧
    (∀ p, msg.method = "tools/call" → msg.params = some p → p.name ∉ toolNames →
      (handleMessage h msg).error = some ⟨-32000, "unknown tool: " ++ p.name⟩ ∧
      (handleMessage h msg).result = none) := by
  constructor
  · intro hm
    simp only [List.mem_cons, List.mem_singleton, not_or] at hm
    obtain ⟨h1, h2, h3, h4⟩ := hm
    simp [handleMessage, h1, h2, h3, h4]
  · intro p hmeth hparams hname
    simp only [toolNames, List.mem_cons, List.mem_singleton, not_or] at hname
    obtain ⟨n1, n2, n3, n4, n5, n6, n7, n8, n9, n10, n11⟩ := hname
    simp [handleMessage, hmeth, hparams, handleToolsCall,
      n1, n2, n3, n4, n5, n6, n7, n8, n9, n10, n11]

/-- Witness for `handleMessage_unknown_spec`: the method `resources/list`
is rejected with -32000 and its name in the message. -/
theorem handleMessage_unknown_spec_witness :
    (("resources/list" : String) ∉ (["", "initialize", "tools/list", "tools/call"] : List String)) ∧
    (handleMessage constHandlers ⟨some (.num 3), "resources/list", none⟩).error =
      some ⟨-32000, "unknown method: " ++ "resources/list"⟩ :=
  ⟨by decide,
   ((handleMessage_unknown_spec constHandlers ⟨some (.num 3), "resources/list", none⟩).1
     (by decide)).1⟩

/-! ## C1: response emission per transport -/

/-- C1 counterexample: the HTTP `/message` endpoint emits a response even
for a notification (id omitted/null), contradicting the claim that no
response is ever emitted for a notification on any transport. -/
theorem notification_gets_http_response :
    notificationMsg.id = none ∧
    httpMessageWrites constHandlers notificationMsg ≠ [] :=
  ⟨rfl, by simp [httpMessageWrites]⟩

/-- C1 (amended): on the line-stream (stdio) transport, a decoded envelope
without an id receives no response and one with a non-null id receives
exactly one; the HTTP message endpoint instead writes exactly one response
for every decoded envelope, notifications included. -/
theorem transport_response_emission (h : ToolHandlers) (msg : MCPMessage) :
    (msg.id = none → stdioWrites h msg = []) ∧
    (msg.id ≠ none → stdioWrites h msg = [handleMessage h msg]) ∧
    httpMessageWrites h msg = [handleMessage h msg] := by
  refine ⟨?_, ?_, rfl⟩
  · intro hid
    simp [stdioWrites, hid]
  · intro hid
    simp [stdioWrites, hid]

/-- Witness for `transport_response_emission`: a request with id 1 gets
exactly one stdio response. -/
theorem transport_response_emission_witness :
    ((⟨some (.num 1), "initialize", none⟩ : MCPMessage).id ≠ none) ∧
    stdioWrites constHandlers ⟨some (.num 1), "initialize", none⟩ =
      [handleMessage constHandlers ⟨some (.num 1), "initialize", none⟩] :=
  ⟨by decide,
   (transport_response_emission constHandlers ⟨some (.num 1), "initialize", none⟩).2.1
     (by decide)⟩

/-! ## C2: job identifier uniqueness -/

/-- C2 (code bug): two job creations that read the same `UnixNano` clock
value produce the same `job_id`, and the second stored job overwrites the
first (the map still has a single entry) — identifiers are not unique. -/
theorem jobID_collision :
    (createUploadJob [] 1234567890 [newUploadTask "/tmp/a" ""]).1 =
      (createUploadJob (createUploadJob [] 1234567890 [newUploadTask "/tmp/a" ""]).2
        1234567890 [newUploadTask "/tmp/b" ""]).1 ∧
    ((createUploadJob (createUploadJob [] 1234567890 [newUploadTask "/tmp/a" ""]).2
        1234567890 [newUploadTask "/tmp/b" ""]).2).length = 1 := by
  decide

/-! ## C8: status query totality -/

/-- C8 (confirmed): for a stored job id the query returns success with a
copy of the job carrying the full task list; for an unknown id it fails
with an error naming the identifier; the store is never mutated. -/
theorem handleUploadStatus_spec (store : JobStore) (jobID : String) (hne : jobID ≠ "") :
    (∀ job, storeLookup store jobID = some job →
      handleUploadStatus store jobID = (.ok ⟨true, copyJob job⟩, store) ∧
      copyJob job = job ∧ (copyJob job).tasks.length = job.tasks.length) ∧
    (storeLookup store jobID = none →
      handleUploadStatus store jobID = (.error ("job " ++ jobID ++ " not found"), store)) ∧
    (handleUploadStatus store jobID).2 = store := by
  refine ⟨?_, ?_, ?_⟩
  · intro job hj
    refine ⟨by simp [handleUploadStatus, hne, hj], ?_, ?_⟩
    · simp [copyJob]
    · simp [copyJob]
  · intro hj
    simp [handleUploadStatus, hne, hj]
  · rcases hl : storeLookup store jobID with _ | job <;>
      simp [handleUploadStatus, hne, hl]

/-- Witness for `handleUploadStatus_spec`: querying the stored job
`job-77` succeeds with its snapshot. -/
theorem handleUploadStatus_spec_witness :
    ("job-77" : String) ≠ "" ∧
    handleUploadStatus sampleStore "job-77" = (.ok ⟨true, copyJob sampleJob⟩, sampleStore) :=
  ⟨by decide,
   ((handleUploadStatus_spec sampleStore "job-77" (by decide)).1 sampleJob (by decide)).1⟩

/-! ## C3: fail-fast asynchronous batch execution -/

/-- C3 (confirmed): for a job with tasks A, B, C where A's upload succeeds
and B's fails, after the runner finishes: A is succeeded; B is failed with
B's error text and a recorded completion time; C is untouched and remains
pending; the job is failed with its error equal to B's error text. -/
theorem runUploadJob_fail_fast (upload : Nat → UploadOutcome)
    (A B C : UploadTaskResult) (p e : String) (cOk cErr : Nat)
    (idv : String) (ct : Nat)
    (hC : C.status = "pending")
    (h0 : upload 0 = .ok p cOk) (h1 : upload 1 = .err e cErr) :
    ((runUploadJobFinal upload ⟨idv, "pending", "", ct, none, [A, B, C]⟩).tasks.getD 0 default).status = "succeeded" ∧
    ((runUploadJobFinal upload ⟨idv, "pending", "", ct, none, [A, B, C]⟩).tasks.getD 1 default).status = "failed" ∧
    ((runUploadJobFinal upload ⟨idv, "pending", "", ct, none, [A, B, C]⟩).tasks.getD 1 default).error = e ∧
    ((runUploadJobFinal upload ⟨idv, "pending", "", ct, none, [A, B, C]⟩).tasks.getD 1 default).completedAt ≠ none ∧
    (runUploadJobFinal upload ⟨idv, "pending", "", ct, none, [A, B, C]⟩).tasks.getD 2 default = C ∧
    ((runUploadJobFinal upload ⟨idv, "pending", "", ct, none, [A, B, C]⟩).tasks.getD 2 default).status = "pending" ∧
    (runUploadJobFinal upload ⟨idv, "pending", "", ct, none, [A, B, C]⟩).status = "failed" ∧
    (runUploadJobFinal upload ⟨idv, "pending", "", ct, none, [A, B, C]⟩).error = e := by
  simp [runUploadJobFinal, runUploadJobTrace, runFrom, h0, h1, lastState,
    jobTaskRunning, jobTaskSucceeded, jobTaskFailedJobFailed, jobCompleted,
    updateTask, taskRunning, taskSucceeded, taskFailed, hC]

/-- Witness for `runUploadJob_fail_fast` on a concrete three-task job. -/
theorem runUploadJob_fail_fast_witness :
    (newUploadTask "/c" "").status = "pending" ∧
    (runUploadJobFinal sampleUpload3 ⟨"job-9", "pending", "", 0, none,
      [newUploadTask "/a" "", newUploadTask "/b" "", newUploadTask "/c" ""]⟩).status = "failed" :=
  ⟨rfl,
   (runUploadJob_fail_fast sampleUpload3 (newUploadTask "/a" "") (newUploadTask "/b" "")
     (newUploadTask "/c" "") "p0" "boom" 201 500 "job-9" 0 rfl (by decide)
     (by decide)).2.2.2.2.2.2.1⟩

/-! ## C10: synchronous batch is not fail-fast -/

theorem syncBatchRun_length (upload : Nat → UploadOutcome) :
    ∀ (tasks : List UploadTaskResult) (i : Nat),
      (syncBatchRun upload tasks i).length = tasks.length
  | [], _ => rfl
  | _ :: rest, i => by simp [syncBatchRun, syncBatchRun_length upload rest (i + 1)]

theorem syncBatchRun_getD (upload : Nat → UploadOutcome) :
    ∀ (tasks : List UploadTaskResult) (i k : Nat), k < tasks.length →
      (syncBatchRun upload tasks i).getD k default =
        syncEntry (tasks.getD k default) (upload (i + k))
  | [], _, k, h => absurd h (by simp)
  | t :: rest, i, 0, _ => by simp [syncBatchRun]
  | t :: rest, i, k + 1, h => by
      simp only [syncBatchRun, List.getD_cons_succ]
      rw [syncBatchRun_getD upload rest (i + 1) k (by simpa using h)]
      have harith : i + 1 + k = i + (k + 1) := by omega
      rw [harith]

/-- C10 (confirmed): with async=false every task is attempted in order and
gets its own result entry — an entry with the error text and status code
when its upload fails, and with the resolved path when it succeeds — and
the top-level success flag is true iff every entry succeeded. -/
theorem handleUploadBatchSync_spec (upload : Nat → UploadOutcome)
    (tasks : List UploadTaskResult) :
    (handleUploadBatchSync upload tasks).results.length = tasks.length ∧
    (∀ k, k < tasks.length → ∀ m c, upload k = .err m c →
      (handleUploadBatchSync upload tasks).results.getD k default =
        ⟨(tasks.getD k default).localPath, (tasks.getD k default).requestedRemotePath,
         false, some m, c⟩) ∧
    (∀ k, k < tasks.length → ∀ pth c, upload k = .ok pth c →
      (handleUploadBatchSync upload tasks).results.getD k default =
        ⟨(tasks.getD k default).localPath, pth, true, none, c⟩) ∧
    ((handleUploadBatchSync upload tasks).success = true ↔
      ∀ b ∈ (handleUploadBatchSync upload tasks).results, b.success = true) ∧
    (handleUploadBatchSync upload tasks).count = tasks.length := by
  refine ⟨?_, ?_, ?_, ?_, ?_⟩
  · simp [handleUploadBatchSync, syncBatchRun_length]
  · intro k hk m c hu
    have h := syncBatchRun_getD upload tasks 0 k hk
    rw [Nat.zero_add, hu] at h
    simpa [handleUploadBatchSync, syncEntry] using h
  · intro k hk pth c hu
    have h := syncBatchRun_getD upload tasks 0 k hk
    rw [Nat.zero_add, hu] at h
    simpa [handleUploadBatchSync, syncEntry] using h
  · simp [handleUploadBatchSync, allSuccessOf, List.all_eq_true]
  · simp [handleUploadBatchSync, syncBatchRun_length]

/-- Witness for `handleUploadBatchSync_spec`: in a two-task batch whose
first task fails, the second task is still attempted and reported. -/
theorem handleUploadBatchSync_spec_witness :
    (1 : Nat) < sampleTasks.length ∧
    (handleUploadBatchSync sampleUpload sampleTasks).results.getD 1 default =
      ⟨"/tmp/b.txt", "x/b", false, some "boom", 500⟩ :=
  ⟨by decide,
   ((handleUploadBatchSync_spec sampleUpload sampleTasks).2.1 1 (by decide) "boom" 500
     (by decide)).trans (by decide)⟩

/-! ## C4 and C9: observable-state invariants of the runner -/

theorem taskStep_refl (t : UploadTaskResult) : taskStep t t := ⟨le_refl _, fun _ => rfl⟩

theorem taskStep_pending_running (t : UploadTaskResult) (h : t.status = "pending") (clk : Nat) :
    taskStep t (taskRunning clk t) := by
  constructor
  · show statusRank t.status ≤ statusRank (taskRunning clk t).status
    rw [h, show (taskRunning clk t).status = "running" from rfl]
    decide
  · rw [h]
    intro hc
    rcases hc with hc | hc <;> exact absurd hc (by decide)

theorem taskStep_running_succeeded (t : UploadTaskResult) (h : t.status = "running")
    (p : String) (c now : Nat) : taskStep t (taskSucceeded p c now t) := by
  constructor
  · show statusRank t.status ≤ statusRank (taskSucceeded p c now t).status
    rw [h, show (taskSucceeded p c now t).status = "succeeded" from rfl]
    decide
  · rw [h]
    intro hc
    rcases hc with hc | hc <;> exact absurd hc (by decide)

theorem taskStep_running_failed (t : UploadTaskResult) (h : t.status = "running")
    (m : String) (c now : Nat) : taskStep t (taskFailed m c now t) := by
  constructor
  · show statusRank t.status ≤ statusRank (taskFailed m c now t).status
    rw [h, show (taskFailed m c now t).status = "failed" from rfl]
    decide
  · rw [h]
    intro hc
    rcases hc with hc | hc <;> exact absurd hc (by decide)

theorem jobStep_same_tasks (a b : UploadJob) (ht : b.tasks = a.tasks)
    (hst : (a.status = "completed" ∨ a.status = "failed") → b.status = a.status) :
    jobStep a b :=
  ⟨by rw [ht], hst, fun k _ => by rw [ht]; exact taskStep_refl _⟩

theorem not_terminal_of_running {x y : String} (h : x = "running") :
    (x = "completed" ∨ x = "failed") → y = x := by
  rw [h]
  intro hc
  rcases hc with hc | hc <;> exact absurd hc (by decide)

theorem jobStep_update (a b : UploadJob) (i : Nat) (f : UploadTaskResult → UploadTaskResult)
    (hb : b.tasks = updateTask a.tasks i f)
    (hbs : (a.status = "completed" ∨ a.status = "failed") → b.status = a.status)
    (hi : i < a.tasks.length)
    (hstep : taskStep (a.tasks.getD i default) (f (a.tasks.getD i default))) :
    jobStep a b := by
  refine ⟨by rw [hb, updateTask_length], hbs, ?_⟩
  intro k hk
  by_cases hki : k = i
  · subst hki
    rw [hb, updateTask_getD_self f default a.tasks k hi]
    exact hstep
  · rw [hb, updateTask_getD_other f default a.tasks i k hki]
    exact taskStep_refl _

theorem runFrom_ne_nil (upload : Nat → UploadOutcome) (j : UploadJob) (i clk : Nat) :
    ∀ ghost, runFrom upload j i clk ghost ≠ []
  | [] => by simp [runFrom]
  | g :: gs => by cases he : upload i <;> simp [runFrom, he]

theorem runFrom_invariants (upload : Nat → UploadOutcome) :
    ∀ (ghost : List UploadTaskResult) (j : UploadJob) (i clk : Nat),
      i + ghost.length = j.tasks.length →
      j.status = "running" →
      (∀ k, k < i → (j.tasks.getD k default).status = "succeeded") →
      (∀ k, i ≤ k → k < j.tasks.length → (j.tasks.getD k default).status = "pending") →
      List.Chain' jobStep (j :: runFrom upload j i clk ghost) ∧
      (∀ s ∈ j :: runFrom upload j i clk ghost, s.tasks.length = j.tasks.length) ∧
      (∀ s ∈ j :: runFrom upload j i clk ghost,
        s.status = "completed" → ∀ t ∈ s.tasks, t.status = "succeeded") ∧
      (∀ s ∈ (j :: runFrom upload j i clk ghost).dropLast, s.status = "running") ∧
      (∀ s ∈ j :: runFrom upload j i clk ghost,
        ∀ t ∈ s.tasks, t.status = "running" → t.startedAt ≠ none)
  | [], j, i, clk, hlen, hrun, hdone, hpend => by
      have hi : i = j.tasks.length := by simpa using hlen
      have hsucc : ∀ t ∈ j.tasks, t.status = "succeeded" :=
        forall_mem_of_forall_getD _ default _ (fun k hk => hdone k (by omega))
      rw [show runFrom upload j i clk [] = [jobCompleted j clk] from rfl]
      refine ⟨?_, ?_, ?_, ?_, ?_⟩
      · rw [List.chain'_cons]
        exact ⟨jobStep_same_tasks _ _ rfl (not_terminal_of_running hrun),
               List.chain'_singleton _⟩
      · intro s hs
        rcases List.mem_cons.mp hs with rfl | hs2
        · rfl
        · rw [List.mem_singleton.mp hs2]
          rfl
      · intro s hs
        rcases List.mem_cons.mp hs with rfl | hs2
        · intro hc
          rw [hrun] at hc
          exact absurd hc (by decide)
        · rw [List.mem_singleton.mp hs2]
          intro _
          exact hsucc
      · intro s hs
        rw [show (j :: [jobCompleted j clk]).dropLast = [j] from rfl] at hs
        rw [List.mem_singleton.mp hs]
        exact hrun
      · intro s hs
        rcases List.mem_cons.mp hs with rfl | hs2
        · intro t htm hr
          have hts := hsucc t htm
          rw [hr] at hts
          exact absurd hts (by decide)
        · rw [List.mem_singleton.mp hs2]
          intro t htm hr
          have hts := hsucc t htm
          rw [hr] at hts
          exact absurd hts (by decide)
  | g :: gs, j, i, clk, hlen, hrun, hdone, hpend => by
      have hlen1 : i + (gs.length + 1) = j.tasks.length := by simpa using hlen
      have hi : i < j.tasks.length := by omega
      have ht0 : (j.tasks.getD i default).status = "pending" := hpend i (le_refl i) hi
      -- per-index facts about the not-running invariant in j
      have hPj : ∀ k, k < j.tasks.length →
          ((j.tasks.getD k default).status = "running" →
            (j.tasks.getD k default).startedAt ≠ none) := by
        intro k hk
        by_cases hki : k < i
        · have hsk := hdone k hki
          intro hr
          rw [hr] at hsk
          exact absurd hsk (by decide)
        · have hsk := hpend k (by omega) hk
          intro hr
          rw [hr] at hsk
          exact absurd hsk (by decide)
      have hNRj : ∀ t ∈ j.tasks, t.status = "running" → t.startedAt ≠ none :=
        forall_mem_of_forall_getD _ default _ hPj
      -- facts about j1 = jobTaskRunning j i clk
      have hj1tasks : (jobTaskRunning j i clk).tasks = updateTask j.tasks i (taskRunning clk) := rfl
      have hj1status : (jobTaskRunning j i clk).status = "running" := hrun
      have hj1len : (jobTaskRunning j i clk).tasks.length = j.tasks.length := by
        rw [hj1tasks, updateTask_length]
      have hj1self : (jobTaskRunning j i clk).tasks.getD i default =
          taskRunning clk (j.tasks.getD i default) := by
        rw [hj1tasks]
        exact updateTask_getD_self _ default _ i hi
      have hj1other : ∀ k, k ≠ i → (jobTaskRunning j i clk).tasks.getD k default =
          j.tasks.getD k default := by
        intro k hk
        rw [hj1tasks]
        exact updateTask_getD_other _ default _ i k hk
      have hj1selfstatus : ((jobTaskRunning j i clk).tasks.getD i default).status = "running" := by
        rw [hj1self]
        rfl
      have hstep01 : jobStep j (jobTaskRunning j i clk) :=
        jobStep_update j _ i (taskRunning clk) rfl (not_terminal_of_running hrun) hi
          (taskStep_pending_running _ ht0 clk)
      have hPj1 : ∀ k, k < (jobTaskRunning j i clk).tasks.length →
          (((jobTaskRunning j i clk).tasks.getD k default).status = "running" →
            ((jobTaskRunning j i clk).tasks.getD k default).startedAt ≠ none) := by
        intro k hk
        by_cases hki : k = i
        · subst hki
          rw [hj1self]
          intro _
          simp [taskRunning]
        · rw [hj1other k hki]
          exact hPj k (by rw [hj1len] at hk; exact hk)
      have hNRj1 : ∀ t ∈ (jobTaskRunning j i clk).tasks,
          t.status = "running" → t.startedAt ≠ none :=
        forall_mem_of_forall_getD _ default _ hPj1
      cases he : upload i with
      | err m c =>
        have hR : runFrom upload j i clk (g :: gs) =
            [jobTaskRunning j i clk,
             jobTaskFailedJobFailed (jobTaskRunning j i clk) i m c (clk + 1)] := by
          simp [runFrom, he]
        rw [hR]
        have hftasks : (jobTaskFailedJobFailed (jobTaskRunning j i clk) i m c (clk + 1)).tasks =
            updateTask (jobTaskRunning j i clk).tasks i (taskFailed m c (clk + 1)) := rfl
        have hfstatus : (jobTaskFailedJobFailed (jobTaskRunning j i clk) i m c (clk + 1)).status =
            "failed" := rfl
        have hstep12 : jobStep (jobTaskRunning j i clk)
            (jobTaskFailedJobFailed (jobTaskRunning j i clk) i m c (clk + 1)) := by
          refine jobStep_update _ _ i (taskFailed m c (clk + 1)) rfl
            (not_terminal_of_running hj1status) (by rw [hj1len]; exact hi) ?_
          exact taskStep_running_failed _ hj1selfstatus m c (clk + 1)
        refine ⟨?_, ?_, ?_, ?_, ?_⟩
        · rw [List.chain'_cons, List.chain'_cons]
          exact ⟨hstep01, hstep12, List.chain'_singleton _⟩
        · intro s hs
          rcases List.mem_cons.mp hs with rfl | hs2
          · rfl
          rcases List.mem_cons.mp hs2 with rfl | hs3
          · exact hj1len
          rw [List.mem_singleton.mp hs3]
          rw [hftasks, updateTask_length]
          exact hj1len
        · intro s hs
          rcases List.mem_cons.mp hs with rfl | hs2
          · intro hc
            rw [hrun] at hc
            exact absurd hc (by decide)
          rcases List.mem_cons.mp hs2 with rfl | hs3
          · intro hc
            rw [hj1status] at hc
            exact absurd hc (by decide)
          rw [List.mem_singleton.mp hs3]
          intro hc
          rw [hfstatus] at hc
          exact absurd hc (by decide)
        · intro s hs
          rw [show (j :: [jobTaskRunning j i clk,
              jobTaskFailedJobFailed (jobTaskRunning j i clk) i m c (clk + 1)]).dropLast =
              [j, jobTaskRunning j i clk] from rfl] at hs
          rcases List.mem_cons.mp hs with rfl | hs2
          · exact hrun
          rw [List.mem_singleton.mp hs2]
          exact hj1status
        · intro s hs
          rcases List.mem_cons.mp hs with rfl | hs2
          · exact hNRj
          rcases List.mem_cons.mp hs2 with rfl | hs3
          · exact hNRj1
          rw [List.mem_singleton.mp hs3]
          refine forall_mem_of_forall_getD _ default _ ?_
          intro k hk
          rw [hftasks] at hk
          rw [updateTask_length] at hk
          by_cases hki : k = i
          · subst hki
            rw [hftasks, updateTask_getD_self _ default _ k hk]
            intro hr
            have hr2 : ("failed" : String) = "running" := hr
            exact absurd hr2 (by decide)
          · rw [hftasks, updateTask_getD_other _ default _ i k hki]
            exact hPj1 k hk
      | ok p c =>
        have hR : runFrom upload j i clk (g :: gs) =
            jobTaskRunning j i clk ::
            jobTaskSucceeded (jobTaskRunning j i clk) i p c (clk + 1) ::
            runFrom upload (jobTaskSucceeded (jobTaskRunning j i clk) i p c (clk + 1))
              (i + 1) (clk + 2) gs := by
          simp [runFrom, he]
        rw [hR]
        have hj2tasks : (jobTaskSucceeded (jobTaskRunning j i clk) i p c (clk + 1)).tasks =
            updateTask (jobTaskRunning j i clk).tasks i (taskSucceeded p c (clk + 1)) := rfl
        have hj2status : (jobTaskSucceeded (jobTaskRunning j i clk) i p c (clk + 1)).status =
            "running" := hj1status
        have hj2len : (jobTaskSucceeded (jobTaskRunning j i clk) i p c (clk + 1)).tasks.length =
            j.tasks.length := by
          rw [hj2tasks, updateTask_length]
          exact hj1len
        have hj2self : (jobTaskSucceeded (jobTaskRunning j i clk) i p c (clk + 1)).tasks.getD i default =
            taskSucceeded p c (clk + 1) ((jobTaskRunning j i clk).tasks.getD i default) := by
          rw [hj2tasks]
          exact updateTask_getD_self _ default _ i (by rw [hj1len]; exact hi)
        have hj2other : ∀ k, k ≠ i →
            (jobTaskSucceeded (jobTaskRunning j i clk) i p c (clk + 1)).tasks.getD k default =
            (jobTaskRunning j i clk).tasks.getD k default := by
          intro k hk
          rw [hj2tasks]
          exact updateTask_getD_other _ default _ i k hk
        have hstep12 : jobStep (jobTaskRunning j i clk)
            (jobTaskSucceeded (jobTaskRunning j i clk) i p c (clk + 1)) := by
          refine jobStep_update _ _ i (taskSucceeded p c (clk + 1)) rfl
            (not_terminal_of_running hj1status) (by rw [hj1len]; exact hi) ?_
          exact taskStep_running_succeeded _ hj1selfstatus p c (clk + 1)
        have IH := runFrom_invariants upload gs
          (jobTaskSucceeded (jobTaskRunning j i clk) i p c (clk + 1)) (i + 1) (clk + 2)
          (by rw [hj2len]; omega)
          hj2status
          (by
            intro k hk
            by_cases hki : k = i
            · subst hki
              rw [hj2self]
              rfl
            · rw [hj2other k hki, hj1other k hki]
              exact hdone k (by omega))
          (by
            intro k hk1 hk2
            rw [hj2len] at hk2
            have hki : k ≠ i := by omega
            rw [hj2other k hki, hj1other k hki]
            exact hpend k (by omega) hk2)
        refine ⟨?_, ?_, ?_, ?_, ?_⟩
        · rw [List.chain'_cons, List.chain'_cons]
          exact ⟨hstep01, hstep12, IH.1⟩
        · intro s hs
          rcases List.mem_cons.mp hs with rfl | hs2
          · rfl
          rcases List.mem_cons.mp hs2 with rfl | hs3
          · exact hj1len
          have := IH.2.1 s hs3
          rw [this, hj2len]
        · intro s hs
          rcases List.mem_cons.mp hs with rfl | hs2
          · intro hc
            rw [hrun] at hc
            exact absurd hc (by decide)
          rcases List.mem_cons.mp hs2 with rfl | hs3
          · intro hc
            rw [hj1status] at hc
            exact absurd hc (by decide)
          exact IH.2.2.1 s hs3
        · intro s hs
          have hLne : runFrom upload (jobTaskSucceeded (jobTaskRunning j i clk) i p c (clk + 1))
              (i + 1) (clk + 2) gs ≠ [] := runFrom_ne_nil upload _ _ _ gs
          rw [dropLast_cons_ne _ _ (by simp),
              dropLast_cons_ne _ _ (by simp)] at hs
          rcases List.mem_cons.mp hs with rfl | hs2
          · exact hrun
          rcases List.mem_cons.mp hs2 with rfl | hs3
          · exact hj1status
          exact IH.2.2.2.1 s hs3
        · intro s hs
          rcases List.mem_cons.mp hs with rfl | hs2
          · exact hNRj
          rcases List.mem_cons.mp hs2 with rfl | hs3
          · exact hNRj1
          exact IH.2.2.2.2 s hs3

/-- All invariants of the observable job states at once: steps form a
`jobStep` chain, task-list lengths are preserved, a completed state has
all tasks succeeded, every non-final state is pending or running, and a
running task always has its start time set. -/
theorem jobStates_invariants (upload : Nat → UploadOutcome) (j0 : UploadJob)
    (hs : j0.status = "pending") (ht : ∀ t ∈ j0.tasks, t.status = "pending") :
    List.Chain' jobStep (jobStates upload j0) ∧
    (∀ s ∈ jobStates upload j0, s.tasks.length = j0.tasks.length) ∧
    (∀ s ∈ jobStates upload j0,
      s.status = "completed" → ∀ t ∈ s.tasks, t.status = "succeeded") ∧
    (∀ s ∈ (jobStates upload j0).dropLast,
      s.status = "pending" ∨ s.status = "running") ∧
    (∀ s ∈ jobStates upload j0,
      ∀ t ∈ s.tasks, t.status = "running" → t.startedAt ≠ none) := by
  have hgetD : ∀ k, k < j0.tasks.length → (j0.tasks.getD k default).status = "pending" :=
    fun k hk => ht _ (getD_mem_of_lt default _ k hk)
  have MAIN := runFrom_invariants upload j0.tasks { j0 with status := "running" } 0 1
    (by simp) rfl (fun k hk => absurd hk (by omega)) (fun k _ hk => hgetD k hk)
  obtain ⟨M1, M2, M3, M4, M5⟩ := MAIN
  rw [show jobStates upload j0 =
      j0 :: { j0 with status := "running" } ::
        runFrom upload { j0 with status := "running" } 0 1 j0.tasks from rfl]
  refine ⟨?_, ?_, ?_, ?_, ?_⟩
  · rw [List.chain'_cons]
    refine ⟨jobStep_same_tasks _ _ rfl ?_, M1⟩
    intro hc
    rw [hs] at hc
    rcases hc with hc | hc <;> exact absurd hc (by decide)
  · intro s hs2
    rcases List.mem_cons.mp hs2 with rfl | hs3
    · rfl
    · exact M2 s hs3
  · intro s hs2
    rcases List.mem_cons.mp hs2 with rfl | hs3
    · intro hc
      rw [hs] at hc
      exact absurd hc (by decide)
    · exact M3 s hs3
  · intro s hs2
    rw [dropLast_cons_ne _ _ (by simp)] at hs2
    rcases List.mem_cons.mp hs2 with rfl | hs3
    · exact Or.inl hs
    · exact Or.inr (M4 s hs3)
  · intro s hs2
    rcases List.mem_cons.mp hs2 with rfl | hs3
    · intro t htm hr
      have h2 := ht t htm
      rw [hr] at h2
      exact absurd h2 (by decide)
    · exact M5 s hs3

/-- C4 (confirmed): over the runner's observable step sequence, every step
is a `jobStep` (task ranks never decrease, terminal task statuses and
terminal job statuses never change, lengths are preserved); a completed
state has every task succeeded; and no state before the final one is
completed (the completed write is the last write, after the final task's
status write). -/
theorem jobStates_monotone (upload : Nat → UploadOutcome) (j0 : UploadJob)
    (hs : j0.status = "pending") (ht : ∀ t ∈ j0.tasks, t.status = "pending") :
    List.Chain' jobStep (jobStates upload j0) ∧
    (∀ s ∈ jobStates upload j0,
      s.status = "completed" → ∀ t ∈ s.tasks, t.status = "succeeded") ∧
    (∀ s ∈ (jobStates upload j0).dropLast, s.status ≠ "completed") := by
  obtain ⟨h1, h2, h3, h4, h5⟩ := jobStates_invariants upload j0 hs ht
  refine ⟨h1, h3, ?_⟩
  intro s hs2
  rcases h4 s hs2 with hp | hr
  · rw [hp]
    decide
  · rw [hr]
    decide

/-- Witness for `jobStates_monotone` on the concrete two-task job. -/
theorem jobStates_monotone_witness :
    (∀ t ∈ sampleJob.tasks, t.status = "pending") ∧
    (∀ s ∈ (jobStates sampleUpload sampleJob).dropLast, s.status ≠ "completed") :=
  ⟨by decide, (jobStates_monotone sampleUpload sampleJob rfl (by decide)).2.2⟩

/-- C9 (confirmed): every state a status reader can observe (the runner's
mutex makes these exactly the observable snapshots) has the originally
created task-list length, never shows a running task with an unset start
time, and task statuses never regress between consecutive observable
states. -/
theorem jobStates_snapshot_consistency (upload : Nat → UploadOutcome) (j0 : UploadJob)
    (hs : j0.status = "pending") (ht : ∀ t ∈ j0.tasks, t.status = "pending") :
    (∀ s ∈ jobStates upload j0, s.tasks.length = j0.tasks.length) ∧
    (∀ s ∈ jobStates upload j0,
      ∀ t ∈ s.tasks, t.status = "running" → t.startedAt ≠ none) ∧
    List.Chain' (fun a b => ∀ k, k < a.tasks.length →
      taskStep (a.tasks.getD k default) (b.tasks.getD k default)) (jobStates upload j0) := by
  obtain ⟨h1, h2, h3, h4, h5⟩ := jobStates_invariants upload j0 hs ht
  exact ⟨h2, h5, h1.imp (fun a b hab => hab.2.2)⟩

/-- Witness for `jobStates_snapshot_consistency` on the concrete two-task
job. -/
theorem jobStates_snapshot_consistency_witness :
    (∀ t ∈ sampleJob.tasks, t.status = "pending") ∧
    (∀ s ∈ jobStates sampleUpload sampleJob, s.tasks.length = sampleJob.tasks.length) :=
  ⟨by decide, (jobStates_snapshot_consistency sampleUpload sampleJob rfl (by decide)).1⟩
